import Mathlib

/-
Verification of the type-inference and schema-reconciliation core of the
streamlit-profiler repository (src/Home.py and
src/pages/05_Incremental Profiling.py).

Shallow embedding conventions:
* pandas cells are `Option` values (`none` = NaN / NA / NaT);
* machine floats are modelled as exact rationals `ℚ` (the numeric strings the
  program parses are decimal literals, which `ℚ` represents exactly;
  non-finite specials such as "inf" are treated as unparseable);
* `pd.to_datetime` on a single string, and `strftime`, are library black
  boxes; they are threaded through the development as an explicit oracle
  `PdOracles`, and theorems that rely on a concrete fact about them (for
  example that a whitespace-only string does not parse as a date) take that
  fact as a hypothesis;
* a pandas dtype is a constructor of `Col`, paired with the typed cell list.
-/

namespace DP

/-- Oracle bundling the two pandas datetime primitives used by the source:
per-cell permissive string parsing (`pd.to_datetime(..., errors="coerce")`,
`none` = NaT) and timestamp formatting (`strftime("%Y-%m-%d %H:%M:%S")`).
Timestamps are abstract integers (nanoseconds since epoch). -/
structure PdOracles where
  dtParse : String → Option Int
  dtFormat : Int → String

/-- Oracle instance for concrete inputs on which the real
`pd.to_datetime` fails (plain numbers, opaque tokens): no string parses. -/
def noDT : PdOracles := ⟨fun _ => none, fun _ => ""⟩

/- ---------- python string primitives ---------- -/

/-- Python's whitespace set for `str.strip()`. -/
def isSpaceCh (c : Char) : Bool :=
  c == ' ' || c == '\t' || c == '\n' || c == '\r' || c.toNat == 11 || c.toNat == 12

/-- Model of python `str.strip()` / pandas `.str.strip()`. -/
def pyStrip (s : String) : String :=
  String.mk (((s.data.dropWhile isSpaceCh).reverse.dropWhile isSpaceCh).reverse)

/-- ASCII lower-casing of one character. -/
def charLower (c : Char) : Char :=
  if 65 ≤ c.toNat ∧ c.toNat ≤ 90 then Char.ofNat (c.toNat + 32) else c

/-- Model of python `str.lower()` on the ASCII tokens the lexicons use. -/
def pyLower (s : String) : String :=
  String.mk (s.data.map charLower)

/-- Test for a trailing percent sign (`str.endswith("%")`). -/
def endsWithPct (s : String) : Bool :=
  s.data.getLast? == some '%'

/- ---------- model of pd.to_numeric(errors="coerce") on one string ---------- -/

/-- Numeric value of a list of decimal digit characters. -/
def digitsToNat (ds : List Char) : Nat :=
  ds.foldl (fun a c => a * 10 + (c.toNat - 48)) 0

/-- Split a leading `+`/`-` sign off a character list; `true` = negative. -/
def parseSign : List Char → Bool × List Char
  | '+' :: cs => (false, cs)
  | '-' :: cs => (true, cs)
  | cs => (false, cs)

/-- Longest digit run at the head of a character list, and the rest. -/
def spanDigits : List Char → List Char × List Char
  | [] => ([], [])
  | c :: cs =>
    if c.isDigit then
      let p := spanDigits cs
      (c :: p.1, p.2)
    else ([], c :: cs)

/-- Characters before the first exponent marker `e`/`E`, and the rest. -/
def spanNonExp : List Char → List Char × List Char
  | [] => ([], [])
  | c :: cs =>
    if c = 'e' ∨ c = 'E' then ([], c :: cs)
    else
      let p := spanNonExp cs
      (c :: p.1, p.2)

/-- Unsigned decimal mantissa `digits [. digits]`; at least one digit. -/
def parseMant (cs : List Char) : Option ℚ :=
  let ip := spanDigits cs
  match ip.2 with
  | [] => if ip.1 = [] then none else some (digitsToNat ip.1 : ℚ)
  | '.' :: r2 =>
    let fp := spanDigits r2
    if fp.2 ≠ [] then none
    else if ip.1 = [] ∧ fp.1 = [] then none
    else some ((digitsToNat ip.1 : ℚ) + (digitsToNat fp.1 : ℚ) / (10 : ℚ) ^ fp.1.length)
  | _ => none

/-- Signed exponent `[+|-] digits`. -/
def parseExp (cs : List Char) : Option Int :=
  let sg := parseSign cs
  let ds := spanDigits sg.2
  if ds.1 = [] ∨ ds.2 ≠ [] then none
  else some (if sg.1 then -(digitsToNat ds.1 : Int) else (digitsToNat ds.1 : Int))

/-- Signed decimal number with optional exponent, over a whole char list. -/
def parseNumToken (cs : List Char) : Option ℚ :=
  let sg := parseSign cs
  let sp := spanNonExp sg.2
  match sp.2 with
  | [] => (parseMant sp.1).map (fun q => if sg.1 then -q else q)
  | _ :: expPart =>
    match parseMant sp.1, parseExp expPart with
    | some m, some e => some ((if sg.1 then -m else m) * (10 : ℚ) ^ e)
    | _, _ => none

/-- Model of `pd.to_numeric(s, errors="coerce")` on a single string:
surrounding whitespace is tolerated, failure is `none`. -/
def pd_to_numeric (s : String) : Option ℚ :=
  parseNumToken (pyStrip s).data

/- ---------- the resilient numeric normalizer (both variants) ---------- -/

/-- Model of `.astype(str)` on one cell of an object column: a missing value
(NaN) renders as the string "nan". -/
def astypeStrObj : Option String → String
  | none => "nan"
  | some s => s

/-- Model of `.str.strip()` followed by `.replace({"": NA, "nan": NA,
"None": NA})`: the blank-detection step shared by both normalizers. -/
def naReplace (s : String) : Option String :=
  let t := pyStrip s
  if t = "" ∨ t = "nan" ∨ t = "None" then none else some t

/-- Model of the two chained replaces removing currency symbols, commas and
percent signs (`[£$,]` and then `%`). -/
def cleanNumChars (s : String) : String :=
  String.mk (s.data.filter (fun c => decide (c ≠ '£' ∧ c ≠ '$' ∧ c ≠ ',' ∧ c ≠ '%')))

/-- Per-cell model of `to_numeric_resilient` from
src/pages/05_Incremental Profiling.py (no percent handling: the `%` is
stripped as a character but the value is never divided by 100). -/
def to_numeric_resilient_cell (c : Option String) : Option ℚ :=
  (naReplace (astypeStrObj c)).bind (fun t => pd_to_numeric (cleanNumChars t))

/-- Per-cell model of `to_numeric_resilient` from src/Home.py: same cleaning,
but cells whose stripped value ends with `%` are additionally divided by 100
when `pct_to_unit` is true. -/
def to_numeric_resilient_home (pct_to_unit : Bool) (c : Option String) : Option ℚ :=
  match naReplace (astypeStrObj c) with
  | none => none
  | some t =>
    match pd_to_numeric (cleanNumChars t) with
    | none => none
    | some q => some (if pct_to_unit && endsWithPct t then q / 100 else q)

/-- Model of numpy / pandas `.round(0)`: round half to even, as an integer. -/
def roundHalfEven (q : ℚ) : Int :=
  let f : Int := q.floor
  let r : ℚ := q - (f : ℚ)
  if r < 1 / 2 then f
  else if 1 / 2 < r then f + 1
  else if f % 2 = 0 then f else f + 1

/- ---------- columns and dtypes ---------- -/

/-- A pandas column: the dtype tag plus the typed cells (`none` = missing). -/
inductive Col where
  | obj : List (Option String) → Col
  | strC : List (Option String) → Col
  | boolC : List (Option Bool) → Col
  | int64 : List (Option Int) → Col
  | float64 : List (Option ℚ) → Col
  | catC : List (Option String) → Col
  | dtC : List (Option Int) → Col
deriving DecidableEq, Repr

/-- Value of `str(dtype)` for each column kind. -/
def colDtype : Col → String
  | .obj _ => "object"
  | .strC _ => "string"
  | .boolC _ => "boolean"
  | .int64 _ => "Int64"
  | .float64 _ => "float64"
  | .catC _ => "category"
  | .dtC _ => "datetime64[ns]"

/-- Substring test (`needle in hay` in Python). -/
def containsSub (needle hay : String) : Bool :=
  (List.range (hay.data.length + 1)).any (fun i => needle.data.isPrefixOf (hay.data.drop i))

/-- Model of `friendly_dtype` from src/pages/05_Incremental Profiling.py:
ints and floats are grouped as "Numeric", then the fixed mapping applies. -/
def friendly_dtype (d : String) : String :=
  if containsSub "float" d ∨ containsSub "int" d ∨ containsSub "Int" d then "Numeric"
  else if d = "object" then "Text"
  else if d = "string" then "Text"
  else if d = "category" then "Category"
  else if d = "bool" then "Boolean"
  else if d = "boolean" then "Boolean"
  else if d = "datetime64[ns]" then "Date/Time"
  else d

/-- Model of `dtype_family` from src/pages/05_Incremental Profiling.py. -/
def dtype_family (d : String) : String :=
  if containsSub "datetime64" d then "datetime"
  else if d = "boolean" ∨ d = "bool" then "boolean"
  else if containsSub "Int" d ∨ containsSub "int" d then "int"
  else if containsSub "float" d then "float"
  else if d = "category" then "category"
  else "text"

/-- Decimal rendering of a float value (used by string casts of float
columns); exact for the decimal-valued floats the pipeline produces. -/
def fracDigitsAux : Nat → ℚ → List Char
  | 0, _ => []
  | n + 1, x =>
    if x = 0 then []
    else
      let y := x * 10
      let d : Int := y.floor
      Char.ofNat (48 + d.toNat) :: fracDigitsAux n (y - (d : ℚ))

/-- String form of a float cell, python style (always a decimal point). -/
def floatRepr (q : ℚ) : String :=
  let a := |q|
  let ip : Int := a.floor
  let ds := fracDigitsAux 17 (a - (ip : ℚ))
  (if q < 0 then "-" else "") ++ toString ip ++ "." ++ (if ds = [] then "0" else String.mk ds)

/-- Model of `.astype("string")` on a column: missing stays missing, present
values render to their string forms. -/
def castStringCells (O : PdOracles) : Col → List (Option String)
  | .obj cs => cs
  | .strC cs => cs
  | .catC cs => cs
  | .boolC cs => cs.map (Option.map (fun b => if b then "True" else "False"))
  | .int64 cs => cs.map (Option.map (fun i => toString i))
  | .float64 cs => cs.map (Option.map floatRepr)
  | .dtC cs => cs.map (Option.map O.dtFormat)

/-- Model of `.astype(str)` on a column: missing values become the literal
strings pandas prints for them ("nan", "<NA>", "NaT"). -/
def colAstypeStr (O : PdOracles) : Col → List String
  | .obj cs => cs.map astypeStrObj
  | .strC cs => cs.map (fun c => c.getD "<NA>")
  | .catC cs => cs.map astypeStrObj
  | .boolC cs => cs.map (fun c => match c with
      | none => "<NA>"
      | some b => if b then "True" else "False")
  | .int64 cs => cs.map (fun c => match c with
      | none => "<NA>"
      | some i => toString i)
  | .float64 cs => cs.map (fun c => match c with
      | none => "nan"
      | some q => floatRepr q)
  | .dtC cs => cs.map (fun c => match c with
      | none => "NaT"
      | some t => O.dtFormat t)

/-- Column-level model of the incremental page's `to_numeric_resilient`:
`astype(str)`, strip, blank replacement, character cleanup, numeric parse. -/
def to_numeric_resilient (O : PdOracles) (col : Col) : List (Option ℚ) :=
  (colAstypeStr O col).map (fun s => (naReplace s).bind (fun t => pd_to_numeric (cleanNumChars t)))

/-- Model of the fixed boolean lexicon `BOOL_MAP`. -/
def BOOL_MAP (s : String) : Option Bool :=
  if s = "true" ∨ s = "yes" ∨ s = "y" ∨ s = "1" then some true
  else if s = "false" ∨ s = "no" ∨ s = "n" ∨ s = "0" then some false
  else none

/-- Model of `pd.to_datetime(column, errors="coerce")` at column level:
string-like cells go through the parse oracle, datetime columns are kept,
integer and float columns are reinterpreted as epoch nanoseconds, and a
boolean column raises `TypeError` (modelled as `none`, the raising outcome
that `coerce_to_schema`'s `except` swallows). -/
def pd_to_datetime_col (O : PdOracles) : Col → Option Col
  | .obj cs => some (.dtC (cs.map (fun c => c.bind O.dtParse)))
  | .strC cs => some (.dtC (cs.map (fun c => c.bind O.dtParse)))
  | .catC cs => some (.dtC (cs.map (fun c => c.bind O.dtParse)))
  | .dtC cs => some (.dtC cs)
  | .int64 cs => some (.dtC cs)
  | .float64 cs => some (.dtC (cs.map (Option.map roundHalfEven)))
  | .boolC _ => none

/-- Body of the per-column `try:` block of `coerce_to_schema`: the forced
coercion of one column to one family. `none` models a raised exception. -/
def coerceCol (O : PdOracles) (fam : String) (col : Col) : Option Col :=
  if fam = "datetime" then pd_to_datetime_col O col
  else if fam = "boolean" then
    some (.boolC ((colAstypeStr O col).map (fun s => BOOL_MAP (pyLower (pyStrip s)))))
  else if fam = "int" then
    some (.int64 ((to_numeric_resilient O col).map (Option.map roundHalfEven)))
  else if fam = "float" then
    some (.float64 (to_numeric_resilient O col))
  else if fam = "category" then
    some (.catC ((castStringCells O col).map (Option.map pyStrip)))
  else some (.strC (castStringCells O col))

/-- A dataframe: ordered named columns. -/
abbrev Table := List (String × Col)

/-- Dictionary lookup in a family map (`schema_fam.get(c)`). -/
def lookupFam (m : List (String × String)) (c : String) : Option String :=
  (m.find? (fun p => p.1 == c)).map Prod.snd

/-- One iteration of the `coerce_to_schema` loop: coerce the column named `c`
(if present) to family `fam`, keeping the column unchanged when the `try:`
body raises (`coerceCol` returns `none`). -/
def setColFam (O : PdOracles) (dfc : Table) (c : String) (fam : String) : Table :=
  dfc.map (fun p => if p.1 = c then (p.1, (coerceCol O fam p.2).getD p.2) else p)

/-- Model of `coerce_to_schema` from src/pages/05_Incremental Profiling.py:
fold the per-column coercion over the family-map items. -/
def coerce_to_schema (O : PdOracles) (df_in : Table) (schema_fam : List (String × String)) : Table :=
  schema_fam.foldl (fun dfc p => setColFam O dfc p.1 p.2) df_in

/-- Per-column result `coerce_to_schema` is proved to compute: columns
absent from the family map are untouched, the rest get the forced coercion
with fallback to the original column on an internal exception. -/
def coerceSpecCol (O : PdOracles) (m : List (String × String)) (n : String) (c : Col) : Col :=
  match lookupFam m n with
  | none => c
  | some f => (coerceCol O f c).getD c

/- ---------- the Home.py column type classifier ---------- -/

/-- Blank test plus blank-stripped value of one raw cell, exactly the
`astype(str).str.strip()` + NA-replacement prefix of the numeric rule. -/
def blankRepl (c : Option String) : Option String :=
  naReplace (astypeStrObj c)

/-- Model of rule 1 of the Home.py conversion loop: permissive datetime
parse of every cell, firing when at least 60% of all rows parse. -/
def dtRule (O : PdOracles) (cells : List (Option String)) : Option (List (Option Int)) :=
  let parsed := cells.map (fun c => c.bind O.dtParse)
  if cells.length ≠ 0 ∧ 5 * parsed.countP (fun c => c.isSome) ≥ 3 * cells.length then
    some parsed
  else none

/-- Membership in the keys of `bool_map`. -/
def inBoolLexicon (s : String) : Bool :=
  s = "true" || s = "false" || s = "yes" || s = "no" || s = "y" || s = "n" || s = "1" || s = "0"

/-- Model of rule 2 of the Home.py conversion loop: drop nulls, strip and
lower-case, fire when at least 90% of the non-null cells are in the boolean
lexicon; the column realigns with nulls (and unmapped stragglers) as NA. -/
def boolRule (cells : List (Option String)) : Option (List (Option Bool)) :=
  let vals := (cells.filterMap id).map (fun s => pyLower (pyStrip s))
  if vals.length ≠ 0 ∧ 10 * vals.countP inBoolLexicon ≥ 9 * vals.length then
    some (cells.map (fun c => c.bind (fun s => BOOL_MAP (pyLower (pyStrip s)))))
  else none

/-- Number of non-blank cells of a column (`nonblank.sum()`). -/
def nonblankCount (cells : List (Option String)) : Nat :=
  cells.countP (fun c => (blankRepl c).isSome)

/-- Number of cells the Home normalizer parses (`num.notna()`; a parsed
cell is necessarily non-blank, so this also counts `num[nonblank].notna()`). -/
def parsedCount (cells : List (Option String)) : Nat :=
  cells.countP (fun c => (to_numeric_resilient_home true c).isSome)

/-- Whole-number test of one cell as the numeric rule performs it
(`num[i] % 1 == 0`): false when the cell failed to parse (NaN). -/
def cellWholeParse (c : Option String) : Bool :=
  match to_numeric_resilient_home true c with
  | some q => q.den == 1
  | none => false

/-- Model of rule 3 of the Home.py conversion loop (the numeric rule).
The whole-number test mirrors `(num[nonblank] % 1 == 0).all()`: it is taken
over every non-blank position, so a non-blank cell that failed to parse
(NaN) makes the test false and forces float64. The guard encodes
`parsed_rate >= 0.9` (with rate 0.0 when no cell is non-blank) and
`nonblank.mean() >= 0.05` in exact integer arithmetic. -/
def numericRule (cells : List (Option String)) : Option Col :=
  if 0 < nonblankCount cells ∧ 10 * parsedCount cells ≥ 9 * nonblankCount cells ∧
      20 * nonblankCount cells ≥ cells.length then
    if cells.all (fun c => !(blankRepl c).isSome || cellWholeParse c) then
      some (.int64 (cells.map (fun c => (to_numeric_resilient_home true c).map Rat.num)))
    else
      some (.float64 (cells.map (to_numeric_resilient_home true)))
  else none

/-- Sorted copy of a list of naturals (insertion sort). -/
def insertNat (x : Nat) : List Nat → List Nat
  | [] => [x]
  | y :: ys => if x ≤ y then x :: y :: ys else y :: insertNat x ys

/-- Insertion sort for naturals, used for medians and top-10 counts. -/
def sortNats : List Nat → List Nat
  | [] => []
  | x :: xs => insertNat x (sortNats xs)

/-- Test `median(l) ≤ bound/2` for a list of naturals, pandas style:
the median of an even-length list is the mean of the two middle values. -/
def medianDoubledLe (l : List Nat) (bound : Nat) : Bool :=
  let s := sortNats l
  if s.length = 0 then false
  else if s.length % 2 = 1 then 2 * s.getD (s.length / 2) 0 ≤ bound
  else s.getD (s.length / 2 - 1) 0 + s.getD (s.length / 2) 0 ≤ bound

/-- Match against the opaque-code pattern `^[A-Za-z0-9_-]{6,}$`. -/
def opaqueCode (s : String) : Bool :=
  s.length ≥ 6 && s.data.all (fun c => c.isAlphanum || c = '_' || c = '-')

/-- Sum of the 10 largest per-value occurrence counts (the
`value_counts(normalize=True).head(10).sum()` numerator; ties at the cutoff
cannot change the sum). -/
def top10Count (s : List String) : Nat :=
  (((sortNats (s.dedup.map (fun v => s.count v))).reverse).take 10).foldl (· + ·) 0

/-- Model of `looks_categorical` from src/Home.py. -/
def looks_categorical (cells : List (Option String)) (n_rows : Nat) : Bool :=
  let s := (cells.filterMap id).map pyStrip
  if n_rows = 0 ∨ s.length = 0 then false
  else
    let uniq := s.dedup.length
    if 2 * uniq > n_rows then false
    else if 10 * s.countP opaqueCode > 3 * s.length then false
    else
      let short_labels := medianDoubledLe (s.map String.length) 50
      let abs_low := uniq ≤ 50
      let rel_low := 5 * uniq ≤ max n_rows 1
      let coverage := 10 * top10Count s ≥ 8 * s.length
      (cond short_labels 1 0) + (cond abs_low 1 0) + (cond rel_low 1 0) + (cond coverage 1 0) ≥ 3

/-- Model of one iteration of the Home.py auto type conversion loop on one
column: the four rules are attempted in order, each gated on the column
still having dtype object, first firing rule rewrites the column. -/
def typeConvertCol (O : PdOracles) (n_rows : Nat) : Col → Col
  | .obj cells =>
    match dtRule O cells with
    | some parsed => .dtC parsed
    | none =>
      match boolRule cells with
      | some bs => .boolC bs
      | none =>
        match numericRule cells with
        | some c => c
        | none =>
          if looks_categorical cells n_rows then .catC cells else .obj cells
  | c => c

/-- Row count of a table (`len(df)`): the length of its first column. -/
def tableNRows : Table → Nat
  | [] => 0
  | p :: _ => match p.2 with
    | .obj cs => cs.length
    | .strC cs => cs.length
    | .boolC cs => cs.length
    | .int64 cs => cs.length
    | .float64 cs => cs.length
    | .catC cs => cs.length
    | .dtC cs => cs.length

/-- Model of the whole Home.py auto type conversion loop over a parsed
table: every column is converted independently. -/
def typeTable (O : PdOracles) (df : Table) : Table :=
  df.map (fun p => (p.1, typeConvertCol O (tableNRows df) p.2))

/-- Session state relevant to the Home page, with Python reference
semantics made explicit: `store` is the heap of dataframe values and
`dfRef` the index `st.session_state["df"]` points at. -/
structure Sess where
  store : List Table
  dfRef : Nat

/-- Model of lines 150-219 of src/Home.py: `df = st.session_state["df"]`
binds an alias, each `df[col] = ...` assignment in the loop mutates the
aliased dataframe in place, and the final `st.session_state["df"] = df`
re-binds the same reference. The heap cell the session pointed at is
overwritten with the typed table; no copy of the original is made. -/
def homeTypeLoop (O : PdOracles) (s : Sess) : Sess :=
  ⟨s.store.set s.dfRef (typeTable O (s.store.getD s.dfRef [])), s.dfRef⟩

/- ---------- the row multiset differencer ---------- -/

/-- A table of raw nullable text cells (the spec's RawTable), the shape on
which the key-free row differencer is embedded. -/
abbrev RTable := List (String × List (Option String))

/-- Reserved sentinel standing for null in row normalization. -/
def SENT : String := "__NA__"

/-- Digit characters of a number below 10^6, left padded to width 6. -/
def natDigits6 (m : Nat) : List Char :=
  [m / 100000 % 10, m / 10000 % 10, m / 1000 % 10, m / 100 % 10, m / 10 % 10, m % 10].map
    (fun d => Char.ofNat (48 + d))

/-- Drop trailing zero characters. -/
def trimTrailZeros (cs : List Char) : List Char :=
  (cs.reverse.dropWhile (fun c => c == '0')).reverse

/-- Model of the numeric rendering `f"{x:.6f}".rstrip("0").rstrip(".")`
used by `normalize_for_rowdiff`: six decimal places, rounded half to even,
trailing zeros and a bare decimal point removed. -/
def fmtNum6 (q : ℚ) : String :=
  let n : Int := roundHalfEven (q * 1000000)
  let a : Nat := n.natAbs
  let fracCs := trimTrailZeros (natDigits6 (a % 1000000))
  (if q < 0 then "-" else "") ++ toString (a / 1000000) ++
    (if fracCs = [] then "" else "." ++ String.mk fracCs)

/-- Per-cell model of `normalize_for_rowdiff` from
src/pages/05_Incremental Profiling.py on a text column: datetime parse
first, then numeric parse, otherwise the trimmed string with nulls filled
by the sentinel; empties collapse to the sentinel at the end. -/
def normalize_for_rowdiff_cell (O : PdOracles) (c : Option String) : String :=
  match c.bind O.dtParse with
  | some t => O.dtFormat t
  | none =>
    match c.bind pd_to_numeric with
    | some q => fmtNum6 q
    | none =>
      let t := match c with
        | none => SENT
        | some s => pyStrip s
      if t = "" then SENT else t

/-- Column names of a raw table. -/
def rnames (t : RTable) : List String :=
  t.map Prod.fst

/-- Insertion step for sorting strings. -/
def insertStr (x : String) : List String → List String
  | [] => [x]
  | y :: ys => if x ≤ y then x :: y :: ys else y :: insertStr x ys

/-- Insertion sort on strings (`sorted(...)`). -/
def sortStrings : List String → List String
  | [] => []
  | x :: xs => insertStr x (sortStrings xs)

/-- Model of `sorted(list(base_cols & new_cols))`. -/
def commonCols (b n : RTable) : List String :=
  sortStrings (((rnames b).filter (fun c => decide (c ∈ rnames n))).dedup)

/-- Column of a raw table by name (first match), empty when absent. -/
def getRCol (t : RTable) (c : String) : List (Option String) :=
  ((t.find? (fun p => p.1 == c)).map Prod.snd).getD []

/-- Row count of a raw table. -/
def rNRows : RTable → Nat
  | [] => 0
  | p :: _ => p.2.length

/-- Normalized projection of a raw table onto a column list: one list of
canonical cell strings per row. -/
def normRows (O : PdOracles) (t : RTable) (cols : List String) : List (List String) :=
  (List.range (rNRows t)).map
    (fun i => cols.map (fun c => normalize_for_rowdiff_cell O ((getRCol t c).getD i none)))

/-- Model of `groupby(cols).cumcount()`: pair each normalized row with the
number of identical rows strictly before it, making keys unique per side. -/
def withDupIdx (rows : List (List String)) : List (List String × Nat) :=
  (List.range rows.length).map (fun i => (rows.getD i [], (rows.take i).count (rows.getD i [])))

/-- Model of the outer merge with indicator: keys only on the new side are
added rows, keys only on the base side are removed rows. -/
def diffCounts (base new : List (List String)) : Nat × Nat :=
  let b := withDupIdx base
  let n := withDupIdx new
  ((n.filter (fun k => !decide (k ∈ b))).length,
   (b.filter (fun k => !decide (k ∈ n))).length)

/-- Model of section 3 of src/pages/05_Incremental Profiling.py: with no
common columns the comparison is reported as not possible (`none`),
otherwise the multiset row diff counts are computed. -/
def rowChanges (O : PdOracles) (base new : RTable) : Option (Nat × Nat) :=
  let common := commonCols base new
  if common = [] then none
  else some (diffCounts (normRows O base common) (normRows O new common))

/-- Raw table whose every column holds `m` copies of the given cell: the
duplicated-row tables of the duplicate-sensitivity property. -/
def mkRT (rowSpec : List (String × Option String)) (m : Nat) : RTable :=
  rowSpec.map (fun p => (p.1, List.replicate m p.2))

/-- Test for a cell that is null, empty or whitespace-only — the cells the
row normalizer is claimed to collapse to the sentinel. -/
def blankCell : Option String → Bool
  | none => true
  | some s => pyStrip s == ""

/- ==================== theorems ==================== -/

attribute [local semireducible] Rat.mul Rat.inv Rat.add Rat.sub

theorem lookupFam_cons (c f n) (rest : List (String × String)) :
    lookupFam ((c, f) :: rest) n = if c = n then some f else lookupFam rest n := by
  by_cases h : c = n
  · simp [lookupFam, List.find?, h]
  · have hb : (c == n) = false := by
      simp [h]
    simp [lookupFam, List.find?, hb, h]

theorem lookupFam_eq_none_of_notMem (rest : List (String × String)) (c : String)
    (h : c ∉ rest.map Prod.fst) : lookupFam rest c = none := by
  unfold lookupFam
  have hf : List.find? (fun p => p.1 == c) rest = none := by
    rw [List.find?_eq_none]
    intro p hp
    simp only [beq_iff_eq]
    intro he
    exact h (List.mem_map.mpr ⟨p, hp, he⟩)
  rw [hf]
  rfl

/-- Loop-invariant characterization of `coerce_to_schema`: when the family
map has no duplicate keys (true of a Python dict), the fold computes the
per-column forced coercion `coerceSpecCol` independently on every column. -/
theorem coerce_to_schema_char (O : PdOracles) (m : List (String × String))
    (hm : (m.map Prod.fst).Nodup) (df : Table) :
    coerce_to_schema O df m = df.map (fun p => (p.1, coerceSpecCol O m p.1 p.2)) := by
  induction m generalizing df with
  | nil =>
    simp [coerce_to_schema, coerceSpecCol, lookupFam]
  | cons hd rest ih =>
    obtain ⟨c, f⟩ := hd
    have hnm : c ∉ rest.map Prod.fst := (List.nodup_cons.mp hm).1
    have hrest : (rest.map Prod.fst).Nodup := (List.nodup_cons.mp hm).2
    have step : coerce_to_schema O df ((c, f) :: rest) =
        coerce_to_schema O (setColFam O df c f) rest := rfl
    rw [step, ih hrest, setColFam, List.map_map]
    apply List.map_congr_left
    intro p _
    rcases p with ⟨n, col⟩
    by_cases h : n = c
    · subst h
      simp [Function.comp, coerceSpecCol, lookupFam_cons,
        lookupFam_eq_none_of_notMem rest n hnm]
    · have h2 : ¬(c = n) := fun hc => h hc.symm
      simp [Function.comp, coerceSpecCol, lookupFam_cons, h, h2]

/-- C9: `coerce_to_schema` never propagates an exception: it always returns
a table with the same column names in the same order, and when the forced
coercion of one column raises internally (`coerceCol` is `none`, as for the
datetime family over a boolean column) that column is returned entirely
unchanged while every other column is still coerced. -/
theorem c9_coerce_total_and_fallback (O : PdOracles) (df : Table)
    (m : List (String × String)) (hm : (m.map Prod.fst).Nodup) :
    ((coerce_to_schema O df m).map Prod.fst = df.map Prod.fst) ∧
    (∀ pre post name col f, df = pre ++ (name, col) :: post →
      lookupFam m name = some f → coerceCol O f col = none →
      coerce_to_schema O df m =
        coerce_to_schema O pre m ++ (name, col) :: coerce_to_schema O post m) := by
  constructor
  · rw [coerce_to_schema_char O m hm df, List.map_map]
    rfl
  · intro pre post name col f hdf hf hc
    subst hdf
    rw [coerce_to_schema_char O m hm, coerce_to_schema_char O m hm pre,
      coerce_to_schema_char O m hm post, List.map_append, List.map_cons]
    have hmid : coerceSpecCol O m name col = col := by
      unfold coerceSpecCol
      rw [hf]
      show (coerceCol O f col).getD col = col
      rw [hc]
      rfl
    rw [hmid]

/-- Closed instance of C9: the datetime coercion of the boolean column "a"
raises and the column survives unchanged, while column "b" is still
force-coerced to Int64. -/
theorem c9_witness :
    ((coerce_to_schema noDT [("a", Col.boolC [some true]), ("b", Col.obj [some "1"])]
        [("a", "datetime"), ("b", "int")]).map Prod.fst = ["a", "b"]) ∧
    (coerce_to_schema noDT [("a", Col.boolC [some true]), ("b", Col.obj [some "1"])]
        [("a", "datetime"), ("b", "int")] =
      coerce_to_schema noDT [] [("a", "datetime"), ("b", "int")] ++
        ("a", Col.boolC [some true]) ::
          coerce_to_schema noDT [("b", Col.obj [some "1"])] [("a", "datetime"), ("b", "int")]) := by
  have h := c9_coerce_total_and_fallback noDT
    [("a", Col.boolC [some true]), ("b", Col.obj [some "1"])]
    [("a", "datetime"), ("b", "int")] (by decide)
  exact ⟨h.1.trans (by decide),
    h.2 [] [("b", Col.obj [some "1"])] "a" (Col.boolC [some true]) "datetime" rfl
      (by decide) (by decide)⟩

/-- C1 fails as stated: under baseline family int, the cell "12.7" does not
coerce to null; `coerce_to_schema` parses it and rounds it to the integer
13 (`.round(0).astype("Int64")`). -/
theorem c1_counterexample :
    coerce_to_schema noDT [("age", Col.obj [some "12.7"])] [("age", "int")] =
      [("age", Col.int64 [some 13])] ∧
    (some (13 : Int) ≠ (none : Option Int)) := by
  decide

/-- C1 (amended): for a column mapped to family int, `coerce_to_schema`
parses each cell with the incremental page's numeric normalizer and rounds
the parsed value half-to-even to an integer; a cell is null in the output
exactly when the normalizer cannot parse it, and the column always becomes
Int64 — never Float. -/
theorem c1_forced_int_rounds (O : PdOracles) (m : List (String × String))
    (hm : (m.map Prod.fst).Nodup) (pre post : Table) (name : String)
    (cells : List (Option String)) (hf : lookupFam m name = some "int") :
    coerce_to_schema O (pre ++ (name, Col.obj cells) :: post) m =
      coerce_to_schema O pre m ++
        (name, Col.int64 (cells.map (fun c => (to_numeric_resilient_cell c).map roundHalfEven))) ::
        coerce_to_schema O post m := by
  rw [coerce_to_schema_char O m hm, coerce_to_schema_char O m hm pre,
    coerce_to_schema_char O m hm post, List.map_append, List.map_cons]
  have hmid : coerceSpecCol O m name (Col.obj cells) =
      Col.int64 (cells.map (fun c => (to_numeric_resilient_cell c).map roundHalfEven)) := by
    unfold coerceSpecCol
    rw [hf]
    show (coerceCol O "int" (Col.obj cells)).getD (Col.obj cells) = _
    have hint : coerceCol O "int" (Col.obj cells) =
        some (Col.int64 ((to_numeric_resilient O (Col.obj cells)).map (Option.map roundHalfEven))) := rfl
    rw [hint]
    simp [to_numeric_resilient, colAstypeStr, List.map_map, to_numeric_resilient_cell,
      Function.comp]
  rw [hmid]

/-- Closed instance of the amended C1: "12.7" rounds to 13, "3" stays 3 and
a null cell stays null under forced int coercion. -/
theorem c1_witness :
    coerce_to_schema noDT [("age", Col.obj [some "12.7", some "3", none])] [("age", "int")] =
      [("age", Col.int64 [some 13, some 3, none])] := by
  have h := c1_forced_int_rounds noDT [("age", "int")] (by decide) [] [] "age"
    [some "12.7", some "3", none] (by decide)
  exact h.trans (by decide)

/-- C2 fails as stated: a column absent from the family map is left with
whatever dtype the CSV reader inferred, not necessarily Text — an inferred
integer column stays Numeric. -/
theorem c2_counterexample :
    coerce_to_schema noDT [("score", Col.int64 [some 1])] [] = [("score", Col.int64 [some 1])] ∧
    friendly_dtype (colDtype (Col.int64 [some 1])) = "Numeric" ∧
    friendly_dtype (colDtype (Col.int64 [some 1])) ≠ "Text" := by
  decide

/-- C2 (amended): `coerce_to_schema` leaves every column absent from the
family map entirely unchanged — same values and same dtype as in the input
table (so it is typed Text only when the input column already was). -/
theorem c2_absent_column_unchanged (O : PdOracles) (m : List (String × String))
    (hm : (m.map Prod.fst).Nodup) (pre post : Table) (name : String) (col : Col)
    (hf : lookupFam m name = none) :
    coerce_to_schema O (pre ++ (name, col) :: post) m =
      coerce_to_schema O pre m ++ (name, col) :: coerce_to_schema O post m := by
  rw [coerce_to_schema_char O m hm, coerce_to_schema_char O m hm pre,
    coerce_to_schema_char O m hm post, List.map_append, List.map_cons]
  have hmid : coerceSpecCol O m name col = col := by
    unfold coerceSpecCol
    rw [hf]
  rw [hmid]

/-- Closed instance of the amended C2: a float column absent from the family
map passes through `coerce_to_schema` untouched. -/
theorem c2_witness :
    coerce_to_schema noDT [("extra", Col.float64 [some (1 / 2 : ℚ)])] [("other", "int")] =
      [("extra", Col.float64 [some (1 / 2 : ℚ)])] := by
  have h := c2_absent_column_unchanged noDT [("other", "int")] (by decide) [] [] "extra"
    (Col.float64 [some (1 / 2 : ℚ)]) (by decide)
  exact h.trans (by decide)

/-- C6 fails as stated: in the schema-reconciler coercion path the percent
sign is stripped but the value is not divided by 100 — "50%" coerced to the
float family becomes 50, not 0.5. -/
theorem c6_counterexample :
    coerce_to_schema noDT [("p", Col.obj [some "50%"])] [("p", "float")] =
      [("p", Col.float64 [some (50 : ℚ)])] ∧
    ((50 : ℚ) ≠ 50 / 100) := by
  decide

/-- C6 (amended): for a non-null cell whose stripped value ends with `%`,
the Home classifier's normalizer strips the percent sign, parses, and
divides by 100 (null when unparseable), while the incremental page's
normalizer used by the schema reconciler strips the percent sign but does
not divide. -/
theorem c6_percent_paths (c : Option String) (t : String)
    (h : naReplace (astypeStrObj c) = some t) (hp : endsWithPct t = true) :
    to_numeric_resilient_home true c = (pd_to_numeric (cleanNumChars t)).map (fun q => q / 100) ∧
    to_numeric_resilient_cell c = pd_to_numeric (cleanNumChars t) := by
  constructor
  · simp only [to_numeric_resilient_home, h]
    cases hq : pd_to_numeric (cleanNumChars t) with
    | none => rfl
    | some q => simp [hp]
  · unfold to_numeric_resilient_cell
    rw [h]
    rfl

/-- Closed instance of the amended C6: the cell "50%" parses to 1/2 in the
classifier path and to 50 in the reconciler path. -/
theorem c6_witness :
    to_numeric_resilient_home true (some "50%") = some (1 / 2 : ℚ) ∧
    to_numeric_resilient_cell (some "50%") = some (50 : ℚ) := by
  have h := c6_percent_paths (some "50%") "50%" (by decide) (by decide)
  exact ⟨h.1.trans (by decide), h.2.trans (by decide)⟩

theorem withDupIdx_cons (x : List String) (l : List (List String)) :
    withDupIdx (x :: l) =
      (x, 0) :: (withDupIdx l).map (fun p => (p.1, p.2 + if x == p.1 then 1 else 0)) := by
  unfold withDupIdx
  rw [List.length_cons, List.range_succ_eq_map, List.map_cons, List.map_map, List.map_map]
  congr 1
  apply List.map_congr_left
  intro i _
  simp [Function.comp, List.getD_cons_succ, List.take_succ_cons, List.count_cons]

theorem mem_withDupIdx (rows : List (List String)) (r : List String) (k : Nat) :
    (r, k) ∈ withDupIdx rows ↔ k < rows.count r := by
  induction rows generalizing k with
  | nil => simp [withDupIdx]
  | cons x l ih =>
    rw [withDupIdx_cons, List.count_cons, List.mem_cons, List.mem_map]
    cases hxr : x == r with
    | true =>
      have hx : x = r := eq_of_beq hxr
      subst hx
      have hone : (if true = true then 1 else 0) = 1 := rfl
      rw [hone]
      constructor
      · intro h
        rcases h with h | h
        · rw [Prod.mk.injEq] at h
          omega
        · obtain ⟨p, hp, hpe⟩ := h
          obtain ⟨r', k'⟩ := p
          rw [Prod.mk.injEq] at hpe
          obtain ⟨h1, h2⟩ := hpe
          subst h1
          rw [if_pos hxr] at h2
          have := (ih k').mp hp
          omega
      · intro hk
        rcases Nat.eq_zero_or_pos k with hk0 | hkpos
        · subst hk0
          exact Or.inl rfl
        · refine Or.inr ⟨(x, k - 1), (ih (k - 1)).mpr (by omega), ?_⟩
          rw [Prod.mk.injEq]
          refine ⟨rfl, ?_⟩
          rw [if_pos hxr]
          omega
    | false =>
      have hnot : ¬((x == r) = true) := by
        rw [hxr]
        exact Bool.false_ne_true
      have hzero : (if false = true then 1 else 0) = 0 := rfl
      rw [hzero, Nat.add_zero]
      constructor
      · intro h
        rcases h with h | h
        · rw [Prod.mk.injEq] at h
          obtain ⟨h1, -⟩ := h
          rw [h1, beq_self_eq_true] at hxr
          exact absurd hxr (by simp)
        · obtain ⟨p, hp, hpe⟩ := h
          obtain ⟨r', k'⟩ := p
          rw [Prod.mk.injEq] at hpe
          obtain ⟨h1, h2⟩ := hpe
          subst h1
          rw [if_neg hnot, Nat.add_zero] at h2
          subst h2
          exact (ih k').mp hp
      · intro hk
        refine Or.inr ⟨(r, k), (ih k).mpr hk, ?_⟩
        rw [Prod.mk.injEq]
        refine ⟨rfl, ?_⟩
        rw [if_neg hnot, Nat.add_zero]

theorem diffCounts_self (l : List (List String)) : diffCounts l l = (0, 0) := by
  simp only [diffCounts]
  rw [List.filter_eq_nil_iff.mpr (fun a ha => by simp [ha])]
  rfl

theorem count_instance_eq (r : List String) (xs : List (List String)) :
    @List.count (List String) List.instBEq r xs =
      @List.count (List String) instBEqOfDecidableEq r xs := by
  induction xs with
  | nil => rfl
  | cons y t ih =>
    have e1 := @List.count_cons (List String) List.instBEq r y t
    have e2 := @List.count_cons (List String) instBEqOfDecidableEq r y t
    rw [e1, e2, ih]
    by_cases h : y = r
    · subst h
      rw [if_pos (@beq_self_eq_true _ List.instBEq _ y),
        if_pos (show (@BEq.beq _ instBEqOfDecidableEq y y) = true from decide_eq_true rfl)]
    · rw [if_neg (fun hb => h (eq_of_beq hb)),
        if_neg (show ¬(@BEq.beq _ instBEqOfDecidableEq y r) = true from
          fun hb => h (of_decide_eq_true hb))]

theorem diffCounts_zero_perm (b n : List (List String)) (h : diffCounts b n = (0, 0)) :
    b.Perm n := by
  simp only [diffCounts] at h
  rw [Prod.mk.injEq] at h
  obtain ⟨h1, h2⟩ := h
  rw [List.length_eq_zero, List.filter_eq_nil_iff] at h1 h2
  have hbn : ∀ r k, k < b.count r → k < n.count r := by
    intro r k hk
    have hm := (mem_withDupIdx b r k).mpr hk
    have hh := h2 _ hm
    simp only [Bool.not_eq_true, decide_eq_false_iff_not, not_not] at hh
    exact (mem_withDupIdx n r k).mp (by simpa using hh)
  have hnb : ∀ r k, k < n.count r → k < b.count r := by
    intro r k hk
    have hm := (mem_withDupIdx n r k).mpr hk
    have hh := h1 _ hm
    simp only [Bool.not_eq_true, decide_eq_false_iff_not, not_not] at hh
    exact (mem_withDupIdx b r k).mp (by simpa using hh)
  rw [List.perm_iff_count]
  intro r
  rw [← count_instance_eq r b, ← count_instance_eq r n]
  by_contra hne
  rcases Nat.lt_or_ge (b.count r) (n.count r) with hlt | hge
  · exact absurd (hnb r (b.count r) hlt) (lt_irrefl _)
  · have hlt : n.count r < b.count r := lt_of_le_of_ne hge (fun he => hne he.symm)
    exact absurd (hbn r (n.count r) hlt) (lt_irrefl _)

theorem withDupIdx_replicate (m : Nat) (r : List String) :
    withDupIdx (List.replicate m r) = (List.range m).map (fun i => (r, i)) := by
  unfold withDupIdx
  rw [List.length_replicate]
  apply List.map_congr_left
  intro i hi
  have hi' : i < m := List.mem_range.mp hi
  have hgd : (List.replicate m r).getD i [] = r := by
    rw [List.getD_eq_getElem?_getD, List.getElem?_replicate, if_pos hi']
    rfl
  rw [hgd, List.take_replicate, List.count_replicate_self]
  have : min i m = i := Nat.min_eq_left (Nat.le_of_lt hi')
  rw [this]

theorem countP_range_ge (a b : Nat) :
    (List.range b).countP (fun i => decide (a ≤ i)) = b - a := by
  induction b with
  | zero => simp
  | succ b ih =>
    rw [List.range_succ, List.countP_append, ih, List.countP_cons, List.countP_nil]
    by_cases hab : a ≤ b
    · rw [if_pos (by simpa using hab)]
      omega
    · rw [if_neg (by simpa using hab)]
      omega

theorem pair_mem_range_map (r : List String) (a i : Nat) :
    ((r, i) ∈ (List.range a).map (fun j => (r, j))) ↔ i < a := by
  simp [List.mem_map, List.mem_range]

theorem diffCounts_replicate (a b : Nat) (r : List String) :
    diffCounts (List.replicate a r) (List.replicate b r) = (b - a, a - b) := by
  simp only [diffCounts]
  rw [withDupIdx_replicate, withDupIdx_replicate]
  have key : ∀ x y : Nat,
      (((List.range y).map (fun i => (r, i))).filter
        (fun k => !decide (k ∈ (List.range x).map (fun j => (r, j))))).length = y - x := by
    intro x y
    rw [← List.countP_eq_length_filter, List.countP_map]
    have hpt : ∀ i : Nat,
        ((fun k => !decide (k ∈ (List.range x).map (fun j => (r, j)))) ∘
          (fun i : Nat => (r, i))) i = decide (x ≤ i) := by
      intro i
      simp only [Function.comp]
      rw [show decide ((r, i) ∈ (List.range x).map (fun j => (r, j))) = decide (i < x) from
        decide_eq_decide.mpr (pair_mem_range_map r x i)]
      rw [← decide_not, decide_eq_decide]
      omega
    rw [List.countP_congr (fun i _ => by rw [hpt i]), countP_range_ge]
  rw [key a b, key b a]

theorem insertStr_ne_nil (x : String) (l : List String) : insertStr x l ≠ [] := by
  cases l with
  | nil => simp [insertStr]
  | cons y ys =>
    unfold insertStr
    split <;> simp

theorem sortStrings_ne_nil (l : List String) (h : l ≠ []) : sortStrings l ≠ [] := by
  cases l with
  | nil => exact absurd rfl h
  | cons x xs => exact insertStr_ne_nil x (sortStrings xs)

theorem dedup_ne_nil (l : List String) (h : l ≠ []) : l.dedup ≠ [] := by
  cases l with
  | nil => exact absurd rfl h
  | cons a as => exact List.ne_nil_of_mem (List.mem_dedup.mpr (List.mem_cons_self a as))

theorem rnames_mkRT (cells : List (String × Option String)) (m : Nat) :
    rnames (mkRT cells m) = cells.map Prod.fst := by
  unfold rnames mkRT
  rw [List.map_map]
  rfl

theorem commonCols_mkRT (cells : List (String × Option String)) (m m' : Nat) :
    commonCols (mkRT cells m) (mkRT cells m') = sortStrings ((cells.map Prod.fst).dedup) := by
  unfold commonCols
  rw [rnames_mkRT, rnames_mkRT]
  congr 2
  apply List.filter_eq_self.mpr
  intro a ha
  simp [ha]

theorem commonCols_mkRT_ne_nil (cells : List (String × Option String)) (m m' : Nat)
    (hne : cells ≠ []) : commonCols (mkRT cells m) (mkRT cells m') ≠ [] := by
  rw [commonCols_mkRT]
  apply sortStrings_ne_nil
  apply dedup_ne_nil
  cases cells with
  | nil => exact absurd rfl hne
  | cons p rest => simp

theorem getRCol_mkRT (cells : List (String × Option String)) (m : Nat) (c : String) :
    getRCol (mkRT cells m) c =
      ((cells.find? (fun p => p.1 == c)).map (fun p => List.replicate m p.2)).getD [] := by
  unfold getRCol mkRT
  rw [List.find?_map, Option.map_map]
  rfl

theorem rNRows_mkRT (cells : List (String × Option String)) (m : Nat) (hne : cells ≠ []) :
    rNRows (mkRT cells m) = m := by
  cases cells with
  | nil => exact absurd rfl hne
  | cons p rest => simp [rNRows, mkRT]

theorem normRows_mkRT (O : PdOracles) (cells : List (String × Option String)) (m : Nat)
    (hne : cells ≠ []) (cols : List String) :
    normRows O (mkRT cells m) cols =
      List.replicate m (cols.map (fun c =>
        normalize_for_rowdiff_cell O
          (((cells.find? (fun p => p.1 == c)).map Prod.snd).getD none))) := by
  unfold normRows
  rw [rNRows_mkRT cells m hne]
  have hrow : ∀ i ∈ List.range m,
      (cols.map (fun c => normalize_for_rowdiff_cell O ((getRCol (mkRT cells m) c).getD i none))) =
        cols.map (fun c =>
          normalize_for_rowdiff_cell O
            (((cells.find? (fun p => p.1 == c)).map Prod.snd).getD none)) := by
    intro i hi
    apply List.map_congr_left
    intro c _
    congr 1
    rw [getRCol_mkRT]
    cases hf : cells.find? (fun p => p.1 == c) with
    | none => rfl
    | some p =>
      simp only [Option.map_some', Option.getD_some]
      rw [List.getD_eq_getElem?_getD, List.getElem?_replicate, if_pos (List.mem_range.mp hi)]
      rfl
  rw [List.map_congr_left hrow, List.map_const', List.length_range]

theorem rowChanges_mkRT (O : PdOracles) (cells : List (String × Option String)) (m m' : Nat)
    (hne : cells ≠ []) :
    rowChanges O (mkRT cells m) (mkRT cells m') =
      some (diffCounts
        (List.replicate m ((commonCols (mkRT cells m) (mkRT cells m')).map (fun c =>
          normalize_for_rowdiff_cell O
            (((cells.find? (fun p => p.1 == c)).map Prod.snd).getD none))))
        (List.replicate m' ((commonCols (mkRT cells m) (mkRT cells m')).map (fun c =>
          normalize_for_rowdiff_cell O
            (((cells.find? (fun p => p.1 == c)).map Prod.snd).getD none))))) := by
  unfold rowChanges
  rw [if_neg (commonCols_mkRT_ne_nil cells m m' hne)]
  rw [normRows_mkRT O cells m hne, normRows_mkRT O cells m' hne]

/-- C3: the row multiset differencer respects duplicate multiplicities: for
every non-empty column set and every row of cells, 2 identical baseline
rows against 3 identical new rows report exactly (added 1, removed 0), and
3 against 1 report (added 0, removed 2). -/
theorem c3_duplicate_multiplicities (O : PdOracles) (cells : List (String × Option String))
    (hne : cells ≠ []) :
    rowChanges O (mkRT cells 2) (mkRT cells 3) = some (1, 0) ∧
    rowChanges O (mkRT cells 3) (mkRT cells 1) = some (0, 2) := by
  constructor
  · rw [rowChanges_mkRT O cells 2 3 hne]
    rw [diffCounts_replicate]
  · rw [rowChanges_mkRT O cells 3 1 hne]
    rw [diffCounts_replicate]

/-- Closed instance of C3: one shared column, duplicated rows. -/
theorem c3_witness :
    rowChanges noDT (mkRT [("a", some "1")] 2) (mkRT [("a", some "1")] 3) = some (1, 0) ∧
    rowChanges noDT (mkRT [("a", some "1")] 3) (mkRT [("a", some "1")] 1) = some (0, 2) :=
  c3_duplicate_multiplicities noDT [("a", some "1")] (by decide)

/-- C8: with zero shared columns the row differencer reports the distinct
"not comparable" outcome (`none`) — and only then; moreover an
(added 0, removed 0) result is produced only when the two sides' normalized
row multisets actually match (are permutations of each other). -/
theorem c8_empty_common_distinct (O : PdOracles) (b n : RTable) :
    (rowChanges O b n = none ↔ commonCols b n = []) ∧
    (rowChanges O b n = some (0, 0) →
      (normRows O b (commonCols b n)).Perm (normRows O n (commonCols b n))) := by
  constructor
  · simp only [rowChanges]
    by_cases hc : commonCols b n = []
    · simp [hc]
    · simp [hc]
  · intro h
    simp only [rowChanges] at h
    by_cases hc : commonCols b n = []
    · rw [if_pos hc] at h
      exact absurd h (by simp)
    · rw [if_neg hc] at h
      exact diffCounts_zero_perm _ _ (Option.some.inj h)

/-- Closed instance of C8: disjoint columns give the not-comparable outcome,
and a (0,0) diff on identical tables comes with matching row multisets. -/
theorem c8_witness :
    (rowChanges noDT ([("x", [some "1"])] : RTable) ([("y", [some "2"])] : RTable) = none) ∧
    (normRows noDT ([("a", [some "v"])] : RTable)
        (commonCols [("a", [some "v"])] [("a", [some "v"])])).Perm
      (normRows noDT ([("a", [some "v"])] : RTable)
        (commonCols [("a", [some "v"])] [("a", [some "v"])])) := by
  refine ⟨(c8_empty_common_distinct noDT _ _).1.mpr (by decide), ?_⟩
  exact (c8_empty_common_distinct noDT [("a", [some "v"])] [("a", [some "v"])]).2 (by decide)

theorem pd_to_numeric_blank (s : String) (hs : pyStrip s = "") : pd_to_numeric s = none := by
  unfold pd_to_numeric
  rw [hs]
  rfl

theorem norm_cell_blank (O : PdOracles) (hO : ∀ s, pyStrip s = "" → O.dtParse s = none)
    (c : Option String) (hb : blankCell c = true) :
    normalize_for_rowdiff_cell O c = SENT := by
  cases c with
  | none => rfl
  | some s =>
    have hs : pyStrip s = "" := by
      simp only [blankCell] at hb
      exact eq_of_beq hb
    simp [normalize_for_rowdiff_cell, Option.bind, hO s hs, pd_to_numeric_blank s hs, hs]

/-- C10: the row normalizer sends a null cell, an empty-string cell and a
whitespace-only cell all to the sentinel key, so two one-column tables
whose rows differ only by null versus blank text diff as unchanged
(added 0, removed 0). The oracle hypothesis records that pandas does not
parse a whitespace-only string as a datetime. -/
theorem c10_null_blank_collapse (O : PdOracles)
    (hO : ∀ s, pyStrip s = "" → O.dtParse s = none) :
    (normalize_for_rowdiff_cell O none = SENT) ∧
    (∀ s, pyStrip s = "" → normalize_for_rowdiff_cell O (some s) = SENT) ∧
    (∀ name bs ns, bs.length = ns.length →
      (∀ i, bs.getD i none = ns.getD i none ∨
        (blankCell (bs.getD i none) = true ∧ blankCell (ns.getD i none) = true)) →
      rowChanges O [(name, bs)] [(name, ns)] = some (0, 0)) := by
  refine ⟨rfl, fun s hs => norm_cell_blank O hO (some s) (by simp [blankCell, hs]), ?_⟩
  intro name bs ns hlen hpt
  have hcc : commonCols [(name, bs)] [(name, ns)] = [name] := by
    simp [commonCols, rnames, sortStrings, insertStr]
  simp only [rowChanges]
  rw [hcc, if_neg (by simp)]
  have hgb : getRCol [(name, bs)] name = bs := by
    simp [getRCol, List.find?]
  have hgn : getRCol [(name, ns)] name = ns := by
    simp [getRCol, List.find?]
  have hXY : normRows O [(name, bs)] [name] = normRows O [(name, ns)] [name] := by
    unfold normRows
    have hb : rNRows [(name, bs)] = bs.length := rfl
    have hn : rNRows [(name, ns)] = ns.length := rfl
    rw [hb, hn, hlen]
    apply List.map_congr_left
    intro i _
    simp only [List.map_cons, List.map_nil, hgb, hgn]
    rcases hpt i with h | ⟨h1, h2⟩
    · rw [h]
    · rw [norm_cell_blank O hO _ h1, norm_cell_blank O hO _ h2]
  rw [hXY, diffCounts_self]

/-- Closed instance of C10: null vs whitespace and empty vs null rows diff
as unchanged. -/
theorem c10_witness :
    rowChanges noDT [("a", [none, some ""])] [("a", [some " ", none])] = some (0, 0) := by
  apply (c10_null_blank_collapse noDT (fun s _ => rfl)).2.2 "a" [none, some ""]
    [some " ", none] rfl
  intro i
  match i with
  | 0 => exact Or.inr ⟨rfl, by decide⟩
  | 1 => exact Or.inr ⟨by decide, rfl⟩
  | (j + 2) => exact Or.inl rfl

/-- C4 fails as stated: a null cell and a non-null cell whose literal text
is the sentinel "__NA__" normalize to the same key. -/
theorem c4_counterexample :
    normalize_for_rowdiff_cell noDT (some "__NA__") = SENT ∧
    normalize_for_rowdiff_cell noDT none = SENT ∧
    some "__NA__" ≠ (none : Option String) := by
  refine ⟨by decide, rfl, by decide⟩

/-- C4 (amended): null cells are rendered as the sentinel "__NA__", but the
sentinel is not reserved: any non-null cell whose stripped text equals the
sentinel (and which pandas does not parse as a date) normalizes to the very
same key, so null and the literal sentinel text are always confused. -/
theorem c4_sentinel_confusable (O : PdOracles) (s : String)
    (hs : pyStrip s = SENT) (hd : O.dtParse s = none) :
    normalize_for_rowdiff_cell O (some s) = SENT ∧
    normalize_for_rowdiff_cell O none = SENT := by
  constructor
  · have hp : pd_to_numeric s = none := by
      unfold pd_to_numeric
      rw [hs]
      rfl
    simp [normalize_for_rowdiff_cell, Option.bind, hd, hp, hs, SENT]
  · rfl

/-- Closed instance of the amended C4: a padded literal sentinel cell
collides with null. -/
theorem c4_witness :
    normalize_for_rowdiff_cell noDT (some " __NA__ ") = SENT ∧
    normalize_for_rowdiff_cell noDT none = SENT :=
  c4_sentinel_confusable noDT " __NA__ " (by decide) rfl

/-- C7 fails as stated: running the Home typing loop on a session whose
only stored table is a raw text column of decimals leaves the caller's
table slot holding a different (float-typed) table — the input was mutated
through the alias, not preserved. -/
theorem c7_counterexample :
    (homeTypeLoop noDT ⟨[[("v", Col.obj [some "1.5", some "2.5"])]], 0⟩).store.getD 0 [] ≠
      ([("v", Col.obj [some "1.5", some "2.5"])] : Table) := by
  decide

/-- C7 (amended): the Home typing pipeline mutates the session dataframe in
place through the alias `df = st.session_state["df"]`: the session keeps
pointing at the same slot, and when the conversion loop changes the table
(and no other slot holds the original value) the prior RawTable value is no
longer present anywhere in the session store — no new table value is
produced and no prior snapshot is retained by this path. -/
theorem c7_in_place_mutation (O : PdOracles) (s : Sess) (_h : s.dfRef < s.store.length)
    (huniq : ∀ j (hj : j < s.store.length), j ≠ s.dfRef → s.store[j] ≠ s.store.getD s.dfRef [])
    (hch : typeTable O (s.store.getD s.dfRef []) ≠ s.store.getD s.dfRef []) :
    ((homeTypeLoop O s).dfRef = s.dfRef) ∧
    (s.store.getD s.dfRef [] ∉ (homeTypeLoop O s).store) := by
  refine ⟨rfl, ?_⟩
  intro hmem
  rw [List.mem_iff_getElem] at hmem
  obtain ⟨j, hj, hje⟩ := hmem
  simp only [homeTypeLoop] at hj hje
  rw [List.getElem_set] at hje
  by_cases hjr : s.dfRef = j
  · rw [if_pos hjr] at hje
    exact hch hje
  · rw [if_neg hjr] at hje
    have hj' : j < s.store.length := by
      simpa using hj
    exact huniq j hj' (fun he => hjr he.symm) hje

/-- Closed instance of the amended C7: after the loop the session still
points at slot 0, and the original raw table value is gone from the store. -/
theorem c7_witness :
    (homeTypeLoop noDT ⟨[[("v", Col.obj [some "1.5", some "2.5"])]], 0⟩).dfRef = 0 ∧
    ([("v", Col.obj [some "1.5", some "2.5"])] : Table) ∉
      (homeTypeLoop noDT ⟨[[("v", Col.obj [some "1.5", some "2.5"])]], 0⟩).store := by
  have h := c7_in_place_mutation noDT ⟨[[("v", Col.obj [some "1.5", some "2.5"])]], 0⟩
    (by decide) (fun j hj hne => absurd (Nat.lt_one_iff.mp hj) hne) (by decide)
  exact ⟨h.1, h.2⟩

end DP
